import Mathlib

/-!
Shallow embedding of the Formula1_Data_Project scraping scripts
(`web_scraping_cirquits.py` and `web_scraping_winners.py`).

HTML pages are modelled as lists of tables; a table carries its CSS
classes, the texts of its `th` cells (in document order) and its `tr`
rows, each a list of `td` cell texts.  Pandas DataFrames are modelled
as a column-name list together with rows of typed values.  Network and
browser I/O is modelled as an input function from a year to the page
content it would deliver.
-/

namespace F1

/-- Python-style whitespace test on a character (as used by `str.strip`
and `get_text(strip=True)`). -/
def isPySpace (c : Char) : Bool := c.isWhitespace

/-- Models Python `str.strip()` / BeautifulSoup `get_text(strip=True)`:
remove leading and trailing whitespace. -/
def pyStrip (s : String) : String :=
  String.mk (((s.data.dropWhile isPySpace).reverse.dropWhile isPySpace).reverse)

/-- Models Python `str.lower()` (the source only normalizes ASCII column
names; Lean's `Char.toLower` covers exactly the basic latin letters). -/
def pyLower (s : String) : String :=
  String.mk (s.data.map Char.toLower)

/-- Models Python `str.replace(a, b)` for a single-character pattern and
replacement, which is how the source uses it (`.replace(' ', '_')`). -/
def pyReplaceChar (s : String) (a b : Char) : String :=
  String.mk (s.data.map (fun c => if c = a then b else c))

/-- The column-name normalization the two `clean_data` functions apply:
`c.lower().replace(' ', '_')`. -/
def normName (c : String) : String :=
  pyReplaceChar (pyLower c) ' ' '_'

/-- An HTML table as the scripts see it: its CSS classes, the stripped
texts of its `th` cells in document order (what
`[th.get_text(strip=True) for th in t.find_all('th')]` produces, and what
`pd.read_html` uses as the header), and its `tr` rows.  The first row of
`rows` is the header row; each row lists the raw texts of its `td` cells. -/
structure HTMLTable where
  classes : List String
  headers : List String
  rows : List (List String)
deriving DecidableEq, Repr

/-- The candidate tables of `soup.find_all('table', {'class': 'wikitable'})`:
the tables carrying the `wikitable` class, in document order. -/
def wikitableCandidates (soup : List HTMLTable) : List HTMLTable :=
  soup.filter (fun t => "wikitable" ∈ t.classes)

/-- `find_circuits_table` from `web_scraping_cirquits.py`: iterate the
`wikitable` candidates in document order and return the first whose `th`
texts (stripped) contain `"Circuit"`, else `None`. -/
def find_circuits_table (soup : List HTMLTable) : Option HTMLTable :=
  (wikitableCandidates soup).find? (fun t => "Circuit" ∈ t.headers.map pyStrip)

/-- One extracted circuits record (the six columns of the DataFrame built
by `parse_circuits_table`). -/
structure CircuitRecord where
  circuit : String
  location : String
  country : String
  last_length_used : String
  circuit_laps : String
  seasons : String
deriving DecidableEq, Repr

/-- The row-to-record step of `parse_circuits_table`: a row (its `td`
cell texts) with at least 10 cells yields a record from the cells at
zero-based indices 0, 4, 5, 6, 7, 9, each stripped
(`get_text(strip=True)`); a shorter row is skipped. -/
def extractRow (cols : List String) : Option CircuitRecord :=
  if 10 ≤ cols.length then
    some { circuit := pyStrip (cols.getD 0 "")
         , location := pyStrip (cols.getD 4 "")
         , country := pyStrip (cols.getD 5 "")
         , last_length_used := pyStrip (cols.getD 6 "")
         , circuit_laps := pyStrip (cols.getD 7 "")
         , seasons := pyStrip (cols.getD 9 "") }
  else none

/-- The unconditional field extraction used to phrase order/shape facts:
what `extractRow` returns on a qualifying row. -/
def extractFields (cols : List String) : CircuitRecord :=
  { circuit := pyStrip (cols.getD 0 "")
  , location := pyStrip (cols.getD 4 "")
  , country := pyStrip (cols.getD 5 "")
  , last_length_used := pyStrip (cols.getD 6 "")
  , circuit_laps := pyStrip (cols.getD 7 "")
  , seasons := pyStrip (cols.getD 9 "") }

/-- `parse_circuits_table` from `web_scraping_cirquits.py`: for each row
after the header row (`table.find_all('tr')[1:]`), if the row has at
least 10 `td` cells, append one record built from the fixed cell
positions; the six parallel python lists zipped into the DataFrame are
modelled as the list of records. -/
def parse_circuits_table (rows : List (List String)) : List CircuitRecord :=
  (rows.drop 1).filterMap extractRow

/-- A calendar date (year, month, day), the value of a parsed datetime. -/
structure Date where
  year : Int
  month : Nat
  day : Nat
deriving DecidableEq, Repr

/-- A DataFrame cell value: a string, a python int (e.g. the injected
`year`), a nullable numeric (`pd.to_numeric` output, `none` = `NaN`) or a
nullable datetime (`pd.to_datetime` output, `none` = `NaT`). -/
inductive Value where
  | vStr (s : String)
  | vInt (n : Int)
  | vNum (n : Option Int)
  | vDate (d : Option Date)
deriving DecidableEq, Repr

/-- Models `astype(str)` on a cell. -/
def Value.asStr : Value → String
  | .vStr s => s
  | .vInt n => toString n
  | .vNum (some n) => toString n
  | .vNum none => "nan"
  | .vDate _ => "NaT"

/-- A pandas DataFrame: named columns and rows of cells (cell `i` of a
row belongs to column `i`). -/
structure DF where
  cols : List String
  rows : List (List Value)
deriving DecidableEq, Repr

/-- `pd.DataFrame()`, the empty frame. -/
def DF.empty : DF := ⟨[], []⟩

/-- Models pandas `DataFrame.empty`: true when either axis has length 0. -/
def DF.isEmpty (df : DF) : Bool := df.rows.isEmpty || df.cols.isEmpty

/-- Column selection on one row: the cell under the first column with the
given name (`df[c]` for unique labels). -/
def getCell (cols : List String) (r : List Value) (c : String) : Option Value :=
  ((cols.zip r).find? (fun p => p.1 = c)).map (·.2)

/-- `df[c] = f(row)` for an existing column `c`: replace the cell under
every column named `c` in each row. -/
def DF.setCol (df : DF) (c : String) (f : List Value → Value) : DF :=
  ⟨df.cols, df.rows.map (fun r => List.zipWith (fun cn v => if cn = c then f r else v) df.cols r)⟩

/-- `df[c] = f(row)` for a fresh column `c`: append the column on the
right. -/
def DF.appendCol (df : DF) (c : String) (f : List Value → Value) : DF :=
  ⟨df.cols ++ [c], df.rows.map (fun r => r ++ [f r])⟩

/-- `df[c] = f(row)` in general: overwrite the column in place when the
label already exists, else append it on the right. -/
def DF.assignCol (df : DF) (c : String) (f : List Value → Value) : DF :=
  if c ∈ df.cols then df.setCol c f else df.appendCol c f

/-- `df.drop(columns=[c])`: remove every column named `c` together with
its cells. -/
def DF.dropCol (df : DF) (c : String) : DF :=
  ⟨df.cols.filter (fun cn => ¬ cn = c),
   df.rows.map (fun r => ((df.cols.zip r).filter (fun p => ¬ p.1 = c)).map (·.2))⟩

/-- The natural number denoted by a list of decimal digit characters. -/
def digitsToNat (ds : List Char) : Nat :=
  ds.foldl (fun a c => a * 10 + (c.toNat - 48)) 0

/-- Models `pd.to_numeric(x, errors='coerce')` on one cell: numbers pass
through, a string of an optionally signed integer parses, anything else
becomes the missing marker `NaN`.  (Fractional literals, which never
occur in a laps column, are treated as unparseable.) -/
def pyToNumeric (v : Value) : Option Int :=
  match v with
  | .vInt n => some n
  | .vNum n => n
  | .vStr s =>
      let t := (pyStrip s).data
      match t with
      | '-' :: ds => if ds ≠ [] ∧ ds.all Char.isDigit then some (-(digitsToNat ds : Int)) else none
      | '+' :: ds => if ds ≠ [] ∧ ds.all Char.isDigit then some ((digitsToNat ds : Int)) else none
      | ds => if ds ≠ [] ∧ ds.all Char.isDigit then some ((digitsToNat ds : Int)) else none
  | .vDate _ => none

/-- Number of days in a month of the proleptic Gregorian calendar. -/
def daysInMonth (y : Int) (m : Nat) : Nat :=
  if m = 2 then (if y % 4 = 0 ∧ (y % 100 ≠ 0 ∨ y % 400 = 0) then 29 else 28)
  else if m ∈ [4, 6, 9, 11] then 30 else 31

/-- The month numbers of the `%b` abbreviations, matched
case-insensitively as `strptime` does. -/
def monthOfAbbrev (s : String) : Option Nat :=
  (["jan", "feb", "mar", "apr", "may", "jun",
    "jul", "aug", "sep", "oct", "nov", "dec"].indexOf (pyLower s)) + 1
  |> fun n => if n ≤ 12 then some n else none

/-- A 1- or 2-digit day-of-month token (`%d`). -/
def parseDayTok (s : String) : Option Nat :=
  if s.data ≠ [] ∧ s.data.length ≤ 2 ∧ s.data.all Char.isDigit then
    let n := digitsToNat s.data
    if 1 ≤ n ∧ n ≤ 31 then some n else none
  else none

/-- A 4-digit year token (`%Y`). -/
def parseYearTok (s : String) : Option Int :=
  if s.data.length = 4 ∧ s.data.all Char.isDigit then some ((digitsToNat s.data : Int)) else none

/-- Splitting a character list at every space (Python `str.split(' ')`;
consecutive separators produce empty fields). -/
def splitOnSpace : List Char → List (List Char)
  | [] => [[]]
  | c :: cs =>
      if c = ' ' then [] :: splitOnSpace cs
      else
        match splitOnSpace cs with
        | [] => [[c]]
        | w :: ws => (c :: w) :: ws

/-- Models `pd.to_datetime(s, format='%d %b %Y', errors='coerce')` on one
string: day, month abbreviation and 4-digit year separated by spaces (no
leading or trailing separator), with the resulting day checked against
the month length; any failure is the missing marker `NaT` (`none`). -/
def strptimeDMY (s : String) : Option Date :=
  if s.data.head? = some ' ' ∨ s.data.getLast? = some ' ' then none else
  match ((splitOnSpace s.data).map String.mk).filter (fun t => t ≠ "") with
  | [d, b, y] =>
      match parseDayTok d, monthOfAbbrev b, parseYearTok y with
      | some dd, some mm, some yy =>
          if dd ≤ daysInMonth yy mm then some ⟨yy, mm, dd⟩ else none
      | _, _, _ => none
  | _ => none

/-- `clean_data` from `web_scraping_winners.py`:
lower-case/underscore the column names; if a `laps` column exists coerce
it with `pd.to_numeric(..., errors='coerce')`; if both `date` and `year`
exist, build `full_date = date.astype(str) + ' ' + year.astype(str)`,
re-parse `date` from it with format `%d %b %Y` (coercing failures to
`NaT`), and drop `full_date`. -/
def clean_data (df : DF) : DF :=
  let df1 : DF := ⟨df.cols.map normName, df.rows⟩
  let df2 := if "laps" ∈ df1.cols then
      df1.setCol "laps" (fun r => .vNum (pyToNumeric ((getCell df1.cols r "laps").getD (.vStr ""))))
    else df1
  if "date" ∈ df2.cols ∧ "year" ∈ df2.cols then
    let df3 := df2.assignCol "full_date"
      (fun r => .vStr (((getCell df2.cols r "date").getD (.vStr "")).asStr ++ " "
                       ++ ((getCell df2.cols r "year").getD (.vStr "")).asStr))
    let df4 := df3.setCol "date"
      (fun r => .vDate (strptimeDMY (((getCell df3.cols r "full_date").getD (.vStr "")).asStr)))
    df4.dropCol "full_date"
  else df2

/-- Derived form of the column list `clean_data` returns (the
characterization `clean_data_char` proves it against the definition). -/
def cleanCols (cols0 : List String) : List String :=
  let cols1 := cols0.map normName
  if "date" ∈ cols1 ∧ "year" ∈ cols1 then
    (if "full_date" ∈ cols1 then cols1 else cols1 ++ ["full_date"]).filter
      (fun cn => ¬ cn = "full_date")
  else cols1

/-- Derived form of the row transform `clean_data` applies to each row
(the characterization `clean_data_char` proves it against the
definition). -/
def cleanRow (cols0 : List String) (r : List Value) : List Value :=
  let cols1 := cols0.map normName
  let r2 := if "laps" ∈ cols1 then
      List.zipWith
        (fun cn v => if cn = "laps" then
            Value.vNum (pyToNumeric ((getCell cols1 r "laps").getD (.vStr ""))) else v)
        cols1 r
    else r
  if "date" ∈ cols1 ∧ "year" ∈ cols1 then
    let fd : Value := .vStr (((getCell cols1 r2 "date").getD (.vStr "")).asStr ++ " "
        ++ ((getCell cols1 r2 "year").getD (.vStr "")).asStr)
    let cols3 := if "full_date" ∈ cols1 then cols1 else cols1 ++ ["full_date"]
    let r3 := if "full_date" ∈ cols1 then
        List.zipWith (fun cn v => if cn = "full_date" then fd else v) cols1 r2
      else r2 ++ [fd]
    let r4 := List.zipWith
      (fun cn v => if cn = "date" then
          Value.vDate (strptimeDMY (((getCell cols3 r3 "full_date").getD (.vStr "")).asStr))
        else v)
      cols3 r3
    ((cols3.zip r4).filter (fun p => ¬ p.1 = "full_date")).map (·.2)
  else r2

/-- `soup.find('table', class_='f1-table')`: the first table of the page
carrying the `f1-table` class, if any. -/
def findF1Table (page : List HTMLTable) : Option HTMLTable :=
  page.find? (fun t => "f1-table" ∈ t.classes)

/-- Models `pd.read_html(StringIO(str(table)))[0]`: the table's `th`
texts become the columns and its `tr`/`td` grid the rows (cells kept as
strings; pandas' dtype inference is immaterial to the claims because the
later numeric coercion accepts both). -/
def read_html (t : HTMLTable) : DF :=
  ⟨t.headers, t.rows.map (fun r => r.map Value.vStr)⟩

/-- `scrape_year` from `web_scraping_winners.py`, with the browser fetch
(`driver.get`; `driver.page_source` parsed by BeautifulSoup) modelled as
the input `site`, the page each year's URL delivers: locate the
`f1-table`; if found, read it into a DataFrame and append the constant
`year` column; otherwise log and return `None`. -/
def scrape_year (site : Int → List HTMLTable) (year : Int) : Option DF :=
  match findF1Table (site year) with
  | some t => some ((read_html t).assignCol "year" (fun _ => .vInt year))
  | none => none

/-- First-occurrence duplicate removal (worker): keep the elements not
yet seen, in order. -/
def firstDedupAux (seen : List String) : List String → List String
  | [] => []
  | c :: cs => if c ∈ seen then firstDedupAux seen cs else c :: firstDedupAux (c :: seen) cs

/-- First-occurrence duplicate removal, the column order `pd.concat`
gives the union of the frames' columns. -/
def firstDedup (l : List String) : List String := firstDedupAux [] l

/-- Models `pd.concat(dfs, ignore_index=True)` for label-unique frames:
columns are the union in first-occurrence order and each row is
re-indexed over that union, missing cells filled with `NaN`. -/
def DF.concat (dfs : List DF) : DF :=
  let cols := firstDedup (dfs.flatMap (·.cols))
  ⟨cols,
   dfs.flatMap (fun d =>
     d.rows.map (fun r => cols.map (fun c => (getCell d.cols r c).getD (.vNum none))))⟩

/-- `scrape_all` from `web_scraping_winners.py` (driver initialisation
and teardown carry no data; the exception-sensitive resource trace is
modelled separately by `scrape_allT`): collect each year's frame,
skipping years that returned `None`, and concatenate — or return the
empty frame when the accumulation list is empty. -/
def scrape_all (site : Int → List HTMLTable) (years : List Int) : DF :=
  let all_races := years.filterMap (scrape_year site)
  if all_races.isEmpty then DF.empty else DF.concat all_races

/-- The observable steps of `main` in `web_scraping_winners.py`. -/
inductive OutEv where
  | wroteCSV
  | printedSaved
  | printedNoData
deriving DecidableEq, Repr

/-- The year span `range(1950, 2025)` used by `main`. -/
def mainYears : List Int := (List.range' 1950 75).map (fun n => (n : Int))

/-- The observable behaviour of `main` in `web_scraping_winners.py`:
scrape all years; if the result frame is non-empty, clean it, write the
CSV and print the saved message, else print the no-data diagnostic. -/
def mainEvents (site : Int → List HTMLTable) : List OutEv :=
  let df_all_races := scrape_all site mainYears
  if ¬ df_all_races.isEmpty then [OutEv.wroteCSV, OutEv.printedSaved]
  else [OutEv.printedNoData]

/-- Resource events of the browser-driving handle. -/
inductive Ev where
  | acquire
  | release
deriving DecidableEq, Repr

/-- A fetch that can raise: `driver.get`/`page_source` either deliver a
page or raise an exception (spec §7(a): network failures propagate). -/
def SiteE := Int → Except Unit (List HTMLTable)

/-- `scrape_year` over a fallible fetch: a raised exception propagates;
otherwise behave as `scrape_year`. -/
def scrape_yearE (site : SiteE) (year : Int) : Except Unit (Option DF) :=
  match site year with
  | .error e => .error e
  | .ok page =>
      match findF1Table page with
      | some t => .ok (some ((read_html t).assignCol "year" (fun _ => .vInt year)))
      | none => .ok none

/-- The year loop of `scrape_all`: accumulate the non-`None` frames; the
first exception aborts the loop. -/
def loopYears (site : SiteE) : List Int → Except Unit (List DF)
  | [] => .ok []
  | y :: ys =>
      match scrape_yearE site y with
      | .error e => .error e
      | .ok none => loopYears site ys
      | .ok (some df) =>
          match loopYears site ys with
          | .error e => .error e
          | .ok rest => .ok (df :: rest)

/-- `scrape_all` instrumented with the browser resource trace, following
the source's control flow: `init_driver()` (acquire) runs before the
loop, `driver.quit()` (release) is the statement after the loop — there
is no `try/finally`, so an exception raised inside the loop propagates
past the `quit` call and the release never happens. -/
def scrape_allT (site : SiteE) (years : List Int) : List Ev × Except Unit DF :=
  match loopYears site years with
  | .ok all_races =>
      ([Ev.acquire, Ev.release],
       .ok (if all_races.isEmpty then DF.empty else DF.concat all_races))
  | .error e => ([Ev.acquire], .error e)

/-! ## Helper lemmas -/

theorem filterMap_extractRow (l : List (List String)) :
    l.filterMap extractRow = (l.filter (fun r => 10 ≤ r.length)).map extractFields := by
  induction l with
  | nil => rfl
  | cons a l ih =>
      by_cases h : 10 ≤ a.length
      · simp [List.filterMap_cons, List.filter_cons, h, extractRow, extractFields, ih]
      · simp [List.filterMap_cons, List.filter_cons, h, extractRow, ih]

theorem find?_eq_some_split {α : Type} (p : α → Bool) :
    ∀ (l : List α) (a : α), l.find? p = some a →
      ∃ pre post, l = pre ++ a :: post ∧ ∀ u ∈ pre, ¬ p u
  | [], a, h => by simp [List.find?] at h
  | x :: l, a, h => by
      by_cases hx : p x
      · refine ⟨[], l, ?_, by simp⟩
        simp [List.find?, hx] at h
        simp [h]
      · have h' : l.find? p = some a := by
          simpa [List.find?, hx] using h
        obtain ⟨pre, post, hl, hpre⟩ := find?_eq_some_split p l a h'
        refine ⟨x :: pre, post, by simp [hl], ?_⟩
        intro u hu
        rcases List.mem_cons.mp hu with rfl | hu
        · simpa using hx
        · exact hpre u hu

theorem toLower_toLower (c : Char) : c.toLower.toLower = c.toLower := by
  by_cases h : c.toNat ≥ 65 ∧ c.toNat ≤ 90
  · have h1 : c.toLower = Char.ofNat (c.toNat + 32) := by
      unfold Char.toLower
      simp [h]
    rw [h1]
    obtain ⟨ha, hb⟩ := h
    generalize c.toNat = n at ha hb ⊢
    interval_cases n <;> decide
  · have h1 : c.toLower = c := by
      unfold Char.toLower
      simp [h]
    rw [h1, h1]

theorem normStep_ne_space (c : Char) :
    ¬ (if c.toLower = ' ' then '_' else c.toLower) = ' ' := by
  by_cases h : c.toLower = ' '
  · rw [if_pos h]
    decide
  · rw [if_neg h]
    exact h

theorem normStep_toLower (c : Char) :
    (if c.toLower = ' ' then '_' else c.toLower).toLower
      = (if c.toLower = ' ' then '_' else c.toLower) := by
  by_cases h : c.toLower = ' '
  · rw [if_pos h]
    decide
  · rw [if_neg h]
    exact toLower_toLower c

theorem normName_idem (c : String) : normName (normName c) = normName c := by
  unfold normName pyReplaceChar pyLower
  simp only [List.map_map]
  congr 1
  apply List.map_congr_left
  intro x _
  simp only [Function.comp_apply]
  rw [normStep_toLower x, if_neg (normStep_ne_space x)]

theorem getCell_nil_left (r : List Value) (c : String) : getCell [] r c = none := rfl

theorem getCell_nil_right (cols : List String) (c : String) : getCell cols [] c = none := by
  cases cols <;> rfl

theorem getCell_cons (cn : String) (cols : List String) (v : Value) (r : List Value)
    (c : String) :
    getCell (cn :: cols) (v :: r) c = if cn = c then some v else getCell cols r c := by
  by_cases h : cn = c <;> simp [getCell, List.zip, List.find?, h]

theorem getCell_not_mem (cols : List String) (r : List Value) (c : String)
    (h : c ∉ cols) : getCell cols r c = none := by
  induction cols generalizing r with
  | nil => rfl
  | cons cn cols ih =>
      cases r with
      | nil => exact getCell_nil_right _ _
      | cons v r =>
          rw [getCell_cons]
          rw [if_neg (fun hc => h (List.mem_cons.mpr (Or.inl hc.symm)))]
          exact ih r (fun hc => h (List.mem_cons_of_mem _ hc))

theorem getCell_isSome (cols : List String) (r : List Value) (c : String)
    (hmem : c ∈ cols) (hlen : r.length = cols.length) : (getCell cols r c).isSome := by
  induction cols generalizing r with
  | nil => simp at hmem
  | cons cn cols ih =>
      cases r with
      | nil => simp at hlen
      | cons v r =>
          rw [getCell_cons]
          by_cases h : cn = c
          · simp [h]
          · rw [if_neg h]
            have hmem' : c ∈ cols := by
              rcases List.mem_cons.mp hmem with h' | h'
              · exact absurd h'.symm h
              · exact h'
            exact ih r hmem' (by simpa using hlen)

theorem getCell_zipWith_ne (cols : List String) (r : List Value) (c c' : String)
    (w : Value) (h : c' ≠ c) :
    getCell cols (List.zipWith (fun cn v => if cn = c then w else v) cols r) c'
      = getCell cols r c' := by
  induction cols generalizing r with
  | nil => rfl
  | cons cn cols ih =>
      cases r with
      | nil => simp [getCell_nil_right]
      | cons v r =>
          rw [List.zipWith_cons_cons, getCell_cons, getCell_cons]
          by_cases hc : cn = c'
          · rw [if_pos hc, if_pos hc]
            rw [if_neg (by rw [hc]; exact fun hh => h hh)]
          · rw [if_neg hc, if_neg hc]
            exact ih r

theorem getCell_zipWith_eq (cols : List String) (r : List Value) (c : String)
    (w : Value) (h : (getCell cols r c).isSome) :
    getCell cols (List.zipWith (fun cn v => if cn = c then w else v) cols r) c
      = some w := by
  induction cols generalizing r with
  | nil => simp [getCell_nil_left] at h
  | cons cn cols ih =>
      cases r with
      | nil => rw [getCell_nil_right] at h; simp at h
      | cons v r =>
          rw [List.zipWith_cons_cons, getCell_cons]
          by_cases hc : cn = c
          · rw [if_pos hc, if_pos hc]
          · rw [if_neg hc]
            rw [getCell_cons, if_neg hc] at h
            exact ih r h

theorem getCell_append (cols : List String) (r : List Value) (cl : String)
    (w : Value) (c' : String) (hlen : r.length = cols.length) :
    getCell (cols ++ [cl]) (r ++ [w]) c'
      = match getCell cols r c' with
        | some v => some v
        | none => if cl = c' then some w else none := by
  induction cols generalizing r with
  | nil =>
      cases r with
      | nil => simp [getCell_nil_left, getCell_cons, getCell_nil_right]
      | cons v r => simp at hlen
  | cons cn cols ih =>
      cases r with
      | nil => simp at hlen
      | cons v r =>
          rw [List.cons_append, List.cons_append, getCell_cons, getCell_cons]
          by_cases hc : cn = c'
          · rw [if_pos hc, if_pos hc]
          · rw [if_neg hc, if_neg hc]
            exact ih r (by simpa using hlen)

theorem getCell_dropRow (cols : List String) (r : List Value) (cd c' : String)
    (h : c' ≠ cd) :
    getCell (cols.filter (fun cn => ¬ cn = cd))
        (((cols.zip r).filter (fun p => ¬ p.1 = cd)).map (·.2)) c'
      = getCell cols r c' := by
  induction cols generalizing r with
  | nil => rfl
  | cons cn cols ih =>
      cases r with
      | nil =>
          rw [List.zip_nil_right]
          simp [getCell_nil_right]
      | cons v r =>
          by_cases hd : cn = cd
          · rw [List.filter_cons_of_neg (by simpa using hd), List.zip_cons_cons,
                List.filter_cons_of_neg (by simpa using hd)]
            rw [getCell_cons, if_neg (fun hh => h (hh.symm.trans hd))]
            exact ih r
          · rw [List.filter_cons_of_pos (by simpa using hd), List.zip_cons_cons,
                List.filter_cons_of_pos (by simpa using hd)]
            rw [List.map_cons, getCell_cons, getCell_cons]
            by_cases hc : cn = c'
            · rw [if_pos hc, if_pos hc]
            · rw [if_neg hc, if_neg hc]
              exact ih r

theorem clean_data_char (df : DF) :
    clean_data df = ⟨cleanCols df.cols, df.rows.map (fun r => cleanRow df.cols r)⟩ := by
  by_cases hL : "laps" ∈ df.cols.map normName <;>
  by_cases hDY : "date" ∈ df.cols.map normName ∧ "year" ∈ df.cols.map normName <;>
  by_cases hFD : "full_date" ∈ df.cols.map normName <;>
    simp only [clean_data, cleanCols, cleanRow, DF.setCol, DF.assignCol, DF.appendCol,
      DF.dropCol, hL, hDY, hFD, if_true, if_false, ite_true, ite_false,
      true_and, and_true, iff_true, iff_false, not_false_iff, List.map_map,
      List.map_id', Function.comp_def]

theorem length_zipWith_set (cols : List String) (r : List Value) (c : String) (w : Value)
    (hlen : r.length = cols.length) :
    (List.zipWith (fun cn v => if cn = c then w else v) cols r).length = cols.length := by
  rw [List.length_zipWith, hlen, Nat.min_self]

theorem not_mem_filter_ne_self (l : List String) (c : String) :
    c ∉ l.filter (fun cn => ¬ cn = c) := by
  intro h
  have := List.of_mem_filter h
  simp at this

theorem getCell_dateDrop (cols3 : List String) (r3 : List Value) (c' : String) (S : String)
    (hfd : getCell cols3 r3 "full_date" = some (.vStr S))
    (hdate : "date" ∈ cols3) (hlen : r3.length = cols3.length) :
    getCell (cols3.filter (fun cn => ¬ cn = "full_date"))
        (((cols3.zip (List.zipWith
              (fun cn v => if cn = "date" then
                  Value.vDate (strptimeDMY (((getCell cols3 r3 "full_date").getD (.vStr "")).asStr))
                else v)
              cols3 r3)).filter (fun p => ¬ p.1 = "full_date")).map (·.2)) c'
      = if c' = "full_date" then none
        else if c' = "date" then some (.vDate (strptimeDMY S))
        else getCell cols3 r3 c' := by
  by_cases hc1 : c' = "full_date"
  · rw [if_pos hc1, hc1]
    exact getCell_not_mem _ _ _ (not_mem_filter_ne_self cols3 "full_date")
  · rw [if_neg hc1, getCell_dropRow cols3 _ "full_date" c' hc1]
    by_cases hc2 : c' = "date"
    · rw [if_pos hc2, hc2]
      rw [getCell_zipWith_eq cols3 r3 "date" _
        (getCell_isSome cols3 r3 "date" hdate hlen)]
      rw [hfd]
      rfl
    · rw [if_neg hc2]
      exact getCell_zipWith_ne cols3 r3 "date" c' _ hc2

theorem getCell_cleanRow (cols0 : List String) (r : List Value)
    (hlen : r.length = cols0.length) (c' : String) :
    getCell (cleanCols cols0) (cleanRow cols0 r) c' =
      if ("date" ∈ cols0.map normName ∧ "year" ∈ cols0.map normName) ∧ c' = "full_date" then
        none
      else if "laps" ∈ cols0.map normName ∧ c' = "laps" then
        some (.vNum (pyToNumeric ((getCell (cols0.map normName) r "laps").getD (.vStr ""))))
      else if ("date" ∈ cols0.map normName ∧ "year" ∈ cols0.map normName) ∧ c' = "date" then
        some (.vDate (strptimeDMY
          (((getCell (cols0.map normName) r "date").getD (.vStr "")).asStr ++ " "
            ++ ((getCell (cols0.map normName) r "year").getD (.vStr "")).asStr)))
      else getCell (cols0.map normName) r c' := by
  have hlen1 : r.length = (List.map normName cols0).length := by simpa using hlen
  by_cases hDY : "date" ∈ List.map normName cols0 ∧ "year" ∈ List.map normName cols0
  · by_cases hL : "laps" ∈ List.map normName cols0
    · by_cases hFD : "full_date" ∈ List.map normName cols0
      · -- laps present, full_date pre-existing (overwritten in place)
        simp only [cleanCols, cleanRow, hDY, hL, hFD, if_true, if_false, ite_true, ite_false,
          true_and, and_true, false_and, and_false, iff_true, iff_false, not_false_iff]
        have hlen2 := length_zipWith_set (List.map normName cols0) r "laps"
          (Value.vNum (pyToNumeric ((getCell (List.map normName cols0) r "laps").getD (Value.vStr "")))) hlen1
        rw [getCell_zipWith_ne (List.map normName cols0) r "laps" "date" _ (by decide),
            getCell_zipWith_ne (List.map normName cols0) r "laps" "year" _ (by decide)]
        have hfd' := getCell_zipWith_eq (List.map normName cols0) _ "full_date"
          (Value.vStr (((getCell (List.map normName cols0) r "date").getD (Value.vStr "")).asStr ++ " "
            ++ ((getCell (List.map normName cols0) r "year").getD (Value.vStr "")).asStr))
          (getCell_isSome (List.map normName cols0) _ "full_date" hFD hlen2)
        rw [getCell_dateDrop (List.map normName cols0) _ c' _ hfd' hDY.1
          (length_zipWith_set _ _ _ _ hlen2)]
        by_cases hc1 : c' = "full_date"
        · rw [if_pos hc1, if_pos hc1]
        · rw [if_neg hc1, if_neg hc1]
          by_cases hc2 : c' = "date"
          · rw [if_pos hc2, if_neg (show ¬ c' = "laps" by rw [hc2]; decide), if_pos hc2]
          · rw [if_neg hc2,
                getCell_zipWith_ne (List.map normName cols0) _ "full_date" c' _ hc1]
            by_cases hc3 : c' = "laps"
            · rw [if_pos hc3, hc3,
                  getCell_zipWith_eq (List.map normName cols0) r "laps" _
                    (getCell_isSome (List.map normName cols0) r "laps" hL hlen1)]
            · rw [if_neg hc3, if_neg hc2,
                  getCell_zipWith_ne (List.map normName cols0) r "laps" c' _ hc3]
      · -- laps present, full_date fresh (appended then dropped)
        simp only [cleanCols, cleanRow, hDY, hL, hFD, if_true, if_false, ite_true, ite_false,
          true_and, and_true, false_and, and_false, iff_true, iff_false, not_false_iff]
        have hlen2 := length_zipWith_set (List.map normName cols0) r "laps"
          (Value.vNum (pyToNumeric ((getCell (List.map normName cols0) r "laps").getD (Value.vStr "")))) hlen1
        rw [getCell_zipWith_ne (List.map normName cols0) r "laps" "date" _ (by decide),
            getCell_zipWith_ne (List.map normName cols0) r "laps" "year" _ (by decide)]
        have hfdnone : getCell (List.map normName cols0)
            (List.zipWith (fun cn v => if cn = "laps" then
              Value.vNum (pyToNumeric ((getCell (List.map normName cols0) r "laps").getD (Value.vStr ""))) else v)
              (List.map normName cols0) r) "full_date" = none := by
          rw [getCell_zipWith_ne (List.map normName cols0) r "laps" "full_date" _ (by decide)]
          exact getCell_not_mem _ _ _ hFD
        have happ : getCell (List.map normName cols0 ++ ["full_date"])
            (List.zipWith (fun cn v => if cn = "laps" then
              Value.vNum (pyToNumeric ((getCell (List.map normName cols0) r "laps").getD (Value.vStr ""))) else v)
              (List.map normName cols0) r
             ++ [Value.vStr (((getCell (List.map normName cols0) r "date").getD (Value.vStr "")).asStr ++ " "
                  ++ ((getCell (List.map normName cols0) r "year").getD (Value.vStr "")).asStr)]) "full_date"
            = some (Value.vStr (((getCell (List.map normName cols0) r "date").getD (Value.vStr "")).asStr ++ " "
                  ++ ((getCell (List.map normName cols0) r "year").getD (Value.vStr "")).asStr)) := by
          rw [getCell_append _ _ "full_date" _ "full_date" hlen2, hfdnone]
          rfl
        rw [getCell_dateDrop (List.map normName cols0 ++ ["full_date"]) _ c' _ happ
          (List.mem_append_left _ hDY.1) (by simp [hlen2])]
        by_cases hc1 : c' = "full_date"
        · rw [if_pos hc1, if_pos hc1]
        · rw [if_neg hc1, if_neg hc1]
          by_cases hc2 : c' = "date"
          · rw [if_pos hc2, if_neg (show ¬ c' = "laps" by rw [hc2]; decide), if_pos hc2]
          · rw [if_neg hc2,
                getCell_append _ _ "full_date" _ c' hlen2]
            by_cases hc3 : c' = "laps"
            · rw [if_pos hc3, hc3,
                  getCell_zipWith_eq (List.map normName cols0) r "laps" _
                    (getCell_isSome (List.map normName cols0) r "laps" hL hlen1)]
            · rw [if_neg hc3, if_neg hc2,
                  getCell_zipWith_ne (List.map normName cols0) r "laps" c' _ hc3]
              rcases hgc : getCell (List.map normName cols0) r c' with _ | v
              · simp only [hgc]
                rw [if_neg (fun hh => hc1 hh.symm)]
              · simp only [hgc]
    · by_cases hFD : "full_date" ∈ List.map normName cols0
      · -- no laps column, full_date pre-existing (overwritten in place)
        simp only [cleanCols, cleanRow, hDY, hL, hFD, if_true, if_false, ite_true, ite_false,
          true_and, and_true, false_and, and_false, iff_true, iff_false, not_false_iff]
        have hfd' := getCell_zipWith_eq (List.map normName cols0) r "full_date"
          (Value.vStr (((getCell (List.map normName cols0) r "date").getD (Value.vStr "")).asStr ++ " "
            ++ ((getCell (List.map normName cols0) r "year").getD (Value.vStr "")).asStr))
          (getCell_isSome (List.map normName cols0) r "full_date" hFD hlen1)
        rw [getCell_dateDrop (List.map normName cols0) _ c' _ hfd' hDY.1
          (length_zipWith_set _ _ _ _ hlen1)]
        by_cases hc1 : c' = "full_date"
        · rw [if_pos hc1, if_pos hc1]
        · rw [if_neg hc1, if_neg hc1]
          by_cases hc2 : c' = "date"
          · rw [if_pos hc2, if_pos hc2]
          · rw [if_neg hc2, if_neg hc2,
                getCell_zipWith_ne (List.map normName cols0) r "full_date" c' _ hc1]
      · -- no laps column, full_date fresh (appended then dropped)
        simp only [cleanCols, cleanRow, hDY, hL, hFD, if_true, if_false, ite_true, ite_false,
          true_and, and_true, false_and, and_false, iff_true, iff_false, not_false_iff]
        have happ : getCell (List.map normName cols0 ++ ["full_date"])
            (r ++ [Value.vStr (((getCell (List.map normName cols0) r "date").getD (Value.vStr "")).asStr ++ " "
                  ++ ((getCell (List.map normName cols0) r "year").getD (Value.vStr "")).asStr)]) "full_date"
            = some (Value.vStr (((getCell (List.map normName cols0) r "date").getD (Value.vStr "")).asStr ++ " "
                  ++ ((getCell (List.map normName cols0) r "year").getD (Value.vStr "")).asStr)) := by
          rw [getCell_append _ _ "full_date" _ "full_date" hlen1,
              getCell_not_mem _ _ _ hFD]
          rfl
        rw [getCell_dateDrop (List.map normName cols0 ++ ["full_date"]) _ c' _ happ
          (List.mem_append_left _ hDY.1) (by simp [hlen1])]
        by_cases hc1 : c' = "full_date"
        · rw [if_pos hc1, if_pos hc1]
        · rw [if_neg hc1, if_neg hc1]
          by_cases hc2 : c' = "date"
          · rw [if_pos hc2, if_pos hc2]
          · rw [if_neg hc2, if_neg hc2,
                getCell_append _ _ "full_date" _ c' hlen1]
            rcases hgc : getCell (List.map normName cols0) r c' with _ | v
            · simp only [hgc]
              rw [if_neg (fun hh => hc1 hh.symm)]
            · simp only [hgc]
  · by_cases hL : "laps" ∈ List.map normName cols0
    · simp only [cleanCols, cleanRow, hDY, hL, if_true, if_false, ite_true, ite_false,
        true_and, and_true, false_and, and_false, iff_true, iff_false, not_false_iff]
      by_cases hc3 : c' = "laps"
      · rw [if_pos hc3, hc3]
        exact getCell_zipWith_eq _ _ _ _ (getCell_isSome _ _ _ hL hlen1)
      · rw [if_neg hc3]
        exact getCell_zipWith_ne _ _ _ _ _ hc3
    · simp only [cleanCols, cleanRow, hDY, hL, if_true, if_false, ite_true, ite_false,
        true_and, and_true, false_and, and_false, iff_true, iff_false, not_false_iff]

theorem map_getCell_self (cols : List String) (r : List Value) (x : Value)
    (hnd : cols.Nodup) (hlen : r.length = cols.length) :
    cols.map (fun c => (getCell cols r c).getD x) = r := by
  induction cols generalizing r with
  | nil =>
      cases r with
      | nil => rfl
      | cons v vs => simp at hlen
  | cons c cs ih =>
      cases r with
      | nil => simp at hlen
      | cons v vs =>
          rw [List.map_cons]
          have hhead : (getCell (c :: cs) (v :: vs) c).getD x = v := by
            rw [getCell_cons, if_pos rfl]
            rfl
          have htail : ∀ c' ∈ cs,
              (getCell (c :: cs) (v :: vs) c').getD x = (getCell cs vs c').getD x := by
            intro c' hc'
            rw [getCell_cons,
                if_neg (fun hh => (List.nodup_cons.mp hnd).1 (by rw [hh]; exact hc'))]
          rw [hhead, List.map_congr_left htail,
              ih vs (List.nodup_cons.mp hnd).2 (by simpa using hlen)]

theorem firstDedupAux_nil_of_sub : ∀ (rest seen : List String),
    (∀ x ∈ rest, x ∈ seen) → firstDedupAux seen rest = []
  | [], _, _ => rfl
  | c :: cs, seen, h => by
      simp only [firstDedupAux, if_pos (h c (List.mem_cons_self c cs))]
      exact firstDedupAux_nil_of_sub cs seen (fun x hx => h x (List.mem_cons_of_mem _ hx))

theorem firstDedupAux_append : ∀ (C seen rest : List String),
    C.Nodup → (∀ x ∈ C, x ∉ seen) → (∀ x ∈ rest, x ∈ seen ∨ x ∈ C) →
    firstDedupAux seen (C ++ rest) = C
  | [], seen, rest, _, _, hr => by
      rw [List.nil_append]
      exact firstDedupAux_nil_of_sub rest seen (fun x hx => by
        rcases hr x hx with h | h
        · exact h
        · simp at h)
  | c :: cs, seen, rest, hnd, hdisj, hr => by
      rw [List.cons_append]
      simp only [firstDedupAux, if_neg (hdisj c (List.mem_cons_self c cs))]
      rw [firstDedupAux_append cs (c :: seen) rest (List.nodup_cons.mp hnd).2 ?hd ?hr]
      case hd =>
        intro x hx hmem
        rcases List.mem_cons.mp hmem with h | h
        · exact (List.nodup_cons.mp hnd).1 (by rw [← h]; exact hx)
        · exact hdisj x (List.mem_cons_of_mem _ hx) h
      case hr =>
        intro x hx
        rcases hr x hx with h | h
        · exact Or.inl (List.mem_cons_of_mem _ h)
        · rcases List.mem_cons.mp h with h2 | h2
          · exact Or.inl (by rw [h2]; exact List.mem_cons_self c seen)
          · exact Or.inr h2

theorem firstDedup_sub (C rest : List String) (hnd : C.Nodup)
    (hsub : ∀ x ∈ rest, x ∈ C) : firstDedup (C ++ rest) = C :=
  firstDedupAux_append C [] rest hnd (fun x _ hx => by simp at hx)
    (fun x hx => Or.inr (hsub x hx))

theorem flatMap_congr_mem {α β : Type} (l : List α) (f g : α → List β)
    (h : ∀ a ∈ l, f a = g a) : l.flatMap f = l.flatMap g := by
  induction l with
  | nil => rfl
  | cons a l ih =>
      rw [List.flatMap_cons, List.flatMap_cons, h a (List.mem_cons_self a l),
          ih (fun b hb => h b (List.mem_cons_of_mem _ hb))]

theorem concat_uniform (dfs : List DF) (C : List String) (hnd : C.Nodup)
    (hcols : ∀ d ∈ dfs, d.cols = C)
    (hrows : ∀ d ∈ dfs, ∀ r ∈ d.rows, r.length = C.length)
    (hne : dfs ≠ []) :
    DF.concat dfs = ⟨C, dfs.flatMap (fun d => d.rows)⟩ := by
  have hcolseq : firstDedup (dfs.flatMap (fun d => d.cols)) = C := by
    cases dfs with
    | nil => exact absurd rfl hne
    | cons d ds =>
        rw [List.flatMap_cons, hcols d (List.mem_cons_self d ds)]
        refine firstDedup_sub C _ hnd ?_
        intro x hx
        obtain ⟨e, he, hxe⟩ := List.mem_flatMap.mp hx
        rw [hcols e (List.mem_cons_of_mem _ he)] at hxe
        exact hxe
  unfold DF.concat
  rw [hcolseq]
  refine congrArg (DF.mk C) ?_
  refine flatMap_congr_mem dfs _ _ ?_
  intro d hd
  have h1 : ∀ r ∈ d.rows,
      C.map (fun c => (getCell d.cols r c).getD (Value.vNum none)) = r := by
    intro r hr
    rw [hcols d hd]
    exact map_getCell_self C r _ hnd (hrows d hd r hr)
  rw [List.map_congr_left h1, List.map_id']

theorem scrape_year_eq (site : Int → List HTMLTable) (y : Int) (t : HTMLTable)
    (ht : findF1Table (site y) = some t) (hy : "year" ∉ t.headers) :
    scrape_year site y
      = some ⟨t.headers ++ ["year"],
              t.rows.map (fun r => r.map Value.vStr ++ [.vInt y])⟩ := by
  unfold scrape_year
  rw [ht]
  simp only [read_html, DF.assignCol, hy, if_false, ite_false, iff_false,
    DF.appendCol, List.map_map, Function.comp_def]

theorem loopYears_ok (site : SiteE) : ∀ years : List Int,
    (∀ y ∈ years, ∃ p, site y = Except.ok p) →
    ∃ dfs, loopYears site years = Except.ok dfs
  | [], _ => ⟨[], rfl⟩
  | y :: ys, hok => by
      obtain ⟨p, hp⟩ := hok y (List.mem_cons_self y ys)
      obtain ⟨rest, hrest⟩ :=
        loopYears_ok site ys (fun z hz => hok z (List.mem_cons_of_mem _ hz))
      cases hf : findF1Table p with
      | none =>
          exact ⟨rest, by simp only [loopYears, scrape_yearE, hp, hf, hrest]⟩
      | some t =>
          exact ⟨(read_html t).assignCol "year" (fun _ => .vInt y) :: rest,
            by simp only [loopYears, scrape_yearE, hp, hf, hrest]⟩

/-! ## Claim theorems -/

/-- C1: the Table Locator iterates the candidate (`wikitable`) tables in
document order and returns the first whose header text set contains the
label `"Circuit"` (exact, case-sensitive, after trimming); if no
candidate's header set contains the label, it returns `none` — it is a
total function, so it never crashes. -/
theorem claim_C1 (soup : List HTMLTable) :
    ((∀ t ∈ wikitableCandidates soup, "Circuit" ∉ t.headers.map pyStrip) →
        find_circuits_table soup = none) ∧
    (∀ t, find_circuits_table soup = some t →
        "wikitable" ∈ t.classes ∧ "Circuit" ∈ t.headers.map pyStrip ∧
        ∃ pre post, wikitableCandidates soup = pre ++ t :: post ∧
          ∀ u ∈ pre, "Circuit" ∉ u.headers.map pyStrip) := by
  constructor
  · intro h
    unfold find_circuits_table
    rw [List.find?_eq_none]
    intro t ht
    simpa using h t ht
  · intro t h
    unfold find_circuits_table at h
    have hp := List.find?_some h
    have hm : t ∈ wikitableCandidates soup := List.mem_of_find?_eq_some h
    have hcls : "wikitable" ∈ t.classes := by
      have := (List.mem_filter.mp hm).2
      simpa using this
    obtain ⟨pre, post, hsplit, hpre⟩ := find?_eq_some_split _ _ _ h
    refine ⟨hcls, by simpa using hp, pre, post, hsplit, ?_⟩
    intro u hu
    simpa using hpre u hu

/-- C1 witness: on a page with one `wikitable` whose headers lack
`"Circuit"`, the locator returns `none`. -/
theorem claim_C1_witness :
    find_circuits_table [⟨["wikitable"], ["Race", "Season"], []⟩] = none :=
  (claim_C1 [⟨["wikitable"], ["Race", "Season"], []⟩]).1 (by decide)

/-- C2: the positional Record Extractor skips the header row, produces
one record per remaining row with at least 10 cells (output count =
qualifying-row count, shorter rows silently skipped), and on the
2-row Silverstone table yields exactly the expected record. -/
theorem claim_C2 :
    (∀ rows : List (List String),
        (parse_circuits_table rows).length
          = ((rows.drop 1).filter (fun r => 10 ≤ r.length)).length) ∧
    parse_circuits_table
        [["Circuit", "h1", "h2", "h3", "h4", "h5", "h6", "h7", "h8", "h9"],
         ["Silverstone", "a", "b", "c", "Silverstone", "UK", "5.891 km", "52",
          "x", "1950–present"]]
      = [{ circuit := "Silverstone", location := "Silverstone", country := "UK"
         , last_length_used := "5.891 km", circuit_laps := "52"
         , seasons := "1950–present" }] := by
  constructor
  · intro rows
    unfold parse_circuits_table
    rw [filterMap_extractRow, List.length_map]
  · decide

/-- C3: when both a `date` and a `year` column exist, the Normalizer
combines them with the fixed `%d %b %Y` format: `"5 Mar"` with year 2021
parses to 2021-03-05, and an unparseable combined text yields the
missing marker `NaT` (`none`) instead of an error. -/
theorem claim_C3 :
    (clean_data ⟨["date", "year"], [[.vStr "5 Mar", .vInt 2021]]⟩
      = ⟨["date", "year"], [[.vDate (some ⟨2021, 3, 5⟩), .vInt 2021]]⟩) ∧
    (∀ (s : String) (y : Int), strptimeDMY (s ++ " " ++ toString y) = none →
      clean_data ⟨["date", "year"], [[.vStr s, .vInt y]]⟩
        = ⟨["date", "year"], [[.vDate none, .vInt y]]⟩) := by
  constructor
  · decide
  · intro s y h
    have hred : clean_data ⟨["date", "year"], [[.vStr s, .vInt y]]⟩
        = ⟨["date", "year"],
           [[.vDate (strptimeDMY (s ++ " " ++ toString y)), .vInt y]]⟩ := rfl
    rw [hred, h]

/-- C3 witness: the parse instance for the unparseable case at the
concrete input `"garbage"` with year 2021. -/
theorem claim_C3_witness :
    clean_data ⟨["date", "year"], [[.vStr "garbage", .vInt 2021]]⟩
      = ⟨["date", "year"], [[.vDate none, .vInt 2021]]⟩ :=
  claim_C3.2 "garbage" 2021 (by decide)

/-- C5: for every record collection with a `laps` column, the Normalizer
coerces each laps cell with the numeric parse and any unparseable value
becomes the missing marker (`vNum none`) — each output row's laps cell is
exactly `vNum` of the coercion of the input cell, never an error. -/
theorem claim_C5 (df : DF)
    (hL : "laps" ∈ df.cols.map normName)
    (hWF : ∀ r ∈ df.rows, r.length = df.cols.length) :
    List.Forall₂
      (fun r r' => getCell (clean_data df).cols r' "laps"
        = some (.vNum (pyToNumeric ((getCell (df.cols.map normName) r "laps").getD (.vStr "")))))
      df.rows (clean_data df).rows := by
  rw [clean_data_char]
  rw [List.forall₂_map_right_iff]
  rw [List.forall₂_same]
  intro r hr
  rw [getCell_cleanRow df.cols r (hWF r hr) "laps"]
  rw [if_neg (fun hh => absurd hh.2 (by decide)), if_pos ⟨hL, rfl⟩]

/-- C5 witness: the laps column `["57", "DNF"]` is coerced to
`[57, missing]` on a concrete frame. -/
theorem claim_C5_witness :
    List.Forall₂
      (fun r r' => getCell (clean_data ⟨["Laps"], [[.vStr "57"], [.vStr "DNF"]]⟩).cols r' "laps"
        = some (.vNum (pyToNumeric ((getCell ((["Laps"] : List String).map normName) r "laps").getD (.vStr "")))))
      [[.vStr "57"], [.vStr "DNF"]]
      (clean_data ⟨["Laps"], [[.vStr "57"], [.vStr "DNF"]]⟩).rows :=
  claim_C5 ⟨["Laps"], [[.vStr "57"], [.vStr "DNF"]]⟩ (by decide) (by decide)

/-- C9 counterexample: on an input that already has a `full_date` column
next to `date` and `year`, `clean_data` also drops the pre-existing
`full_date` column, so the output column set is not the renamed input
column set. -/
theorem claim_C9_counterexample :
    ¬ ((clean_data ⟨["date", "year", "full_date"],
          [[.vStr "5 Mar", .vInt 2021, .vStr "x"]]⟩).cols
        = (["date", "year", "full_date"] : List String).map normName) := by
  decide

/-- C9 (amended): provided the renamed input columns do not contain
`full_date` alongside both `date` and `year`, the winners `clean_data`
returns exactly the renamed input columns (its `full_date` helper column
is dropped before returning) and leaves the cells of every column other
than `laps` and `date` unchanged. -/
theorem claim_C9_amended (df : DF)
    (hguard : ¬("full_date" ∈ df.cols.map normName ∧ "date" ∈ df.cols.map normName
        ∧ "year" ∈ df.cols.map normName))
    (hWF : ∀ r ∈ df.rows, r.length = df.cols.length) :
    (clean_data df).cols = df.cols.map normName ∧
    List.Forall₂
      (fun r r' => ∀ c', ¬ c' = "laps" → ¬ c' = "date" →
        getCell (clean_data df).cols r' c' = getCell (df.cols.map normName) r c')
      df.rows (clean_data df).rows := by
  constructor
  · rw [clean_data_char]
    show cleanCols df.cols = df.cols.map normName
    unfold cleanCols
    by_cases hDY : "date" ∈ df.cols.map normName ∧ "year" ∈ df.cols.map normName
    · have hFD : "full_date" ∉ df.cols.map normName := fun hm => hguard ⟨hm, hDY⟩
      rw [if_pos hDY, if_neg hFD, List.filter_append]
      have h1 : (df.cols.map normName).filter (fun cn => ¬ cn = "full_date")
          = df.cols.map normName :=
        List.filter_eq_self.mpr (fun a ha => by
          simp only [decide_eq_true_eq]
          intro hh
          exact hFD (hh ▸ ha))
      rw [h1]
      simp
    · rw [if_neg hDY]
  · rw [clean_data_char]
    rw [List.forall₂_map_right_iff]
    rw [List.forall₂_same]
    intro r hr c' hc3 hc2
    rw [getCell_cleanRow df.cols r (hWF r hr) c']
    by_cases hfd : ("date" ∈ df.cols.map normName ∧ "year" ∈ df.cols.map normName)
        ∧ c' = "full_date"
    · rw [if_pos hfd, hfd.2]
      have hFD : "full_date" ∉ df.cols.map normName := fun hm => hguard ⟨hm, hfd.1⟩
      rw [getCell_not_mem _ _ _ hFD]
    · rw [if_neg hfd, if_neg (fun hh => hc3 hh.2), if_neg (fun hh => hc2 hh.2)]

/-- C9 witness: the amended claim holds on a concrete frame with
`Date`, `Year` and `Laps` columns. -/
theorem claim_C9_amended_witness :
    (clean_data ⟨["Date", "Year", "Laps"], [[.vStr "5 Mar", .vInt 2021, .vStr "57"]]⟩).cols
        = (["Date", "Year", "Laps"] : List String).map normName ∧
    List.Forall₂
      (fun r r' => ∀ c', ¬ c' = "laps" → ¬ c' = "date" →
        getCell (clean_data ⟨["Date", "Year", "Laps"],
            [[.vStr "5 Mar", .vInt 2021, .vStr "57"]]⟩).cols r' c'
          = getCell ((["Date", "Year", "Laps"] : List String).map normName) r c')
      [[.vStr "5 Mar", .vInt 2021, .vStr "57"]]
      (clean_data ⟨["Date", "Year", "Laps"],
          [[.vStr "5 Mar", .vInt 2021, .vStr "57"]]⟩).rows :=
  claim_C9_amended ⟨["Date", "Year", "Laps"], [[.vStr "5 Mar", .vInt 2021, .vStr "57"]]⟩
    (by decide) (by decide)

/-- C6: the Normalizer's field-name transform (lower-case then join
words with underscores) is idempotent on lists of field names. -/
theorem claim_C6 (names : List String) :
    (names.map normName).map normName = names.map normName := by
  rw [List.map_map]
  apply List.map_congr_left
  intro c _
  exact normName_idem c

/-- C4: over periods `[2020, 2021]` where 2020's page has no matching
table and 2021's does, the 2020 period is skipped (not fatal) and the
result contains exactly 2021's rows, each tagged with year 2021. -/
theorem claim_C4 (t : HTMLTable)
    (hc : "f1-table" ∈ t.classes)
    (hnd : (t.headers ++ ["year"]).Nodup)
    (hWF : ∀ r ∈ t.rows, r.length = t.headers.length) :
    scrape_all (fun y => if y = 2021 then [t] else []) [2020, 2021]
      = ⟨t.headers ++ ["year"],
         t.rows.map (fun r => r.map Value.vStr ++ [.vInt 2021])⟩ := by
  have hyear : "year" ∉ t.headers := by
    intro hm
    have hdisj := (List.nodup_append.mp hnd).2.2
    exact hdisj hm (List.mem_singleton.mpr rfl)
  have h2020 : scrape_year (fun y => if y = (2021 : Int) then [t] else []) 2020 = none := by
    norm_num [scrape_year, findF1Table]
  have hf : findF1Table ((fun y => if y = (2021 : Int) then [t] else []) 2021) = some t := by
    norm_num [findF1Table, hc]
  have h2021 := scrape_year_eq (fun y => if y = (2021 : Int) then [t] else []) 2021 t hf hyear
  simp only [scrape_all, List.filterMap_cons, h2020, h2021, List.filterMap_nil,
    List.isEmpty_cons, if_false, ite_false, Bool.false_eq_true]
  rw [concat_uniform _ (t.headers ++ ["year"]) hnd ?hc2 ?hr2 (by simp)]
  · simp
  case hc2 =>
    intro d hd
    rw [List.mem_singleton.mp hd]
  case hr2 =>
    intro d hd r hr
    rw [List.mem_singleton.mp hd] at hr
    obtain ⟨r0, hr0, hre⟩ := List.mem_map.mp hr
    rw [← hre]
    simp [hWF r0 hr0]

/-- C4 witness: a concrete 2021 table produces exactly its two rows
tagged with 2021. -/
theorem claim_C4_witness :
    scrape_all
        (fun y => if y = 2021 then
          [⟨["f1-table"], ["Grand Prix", "Date"],
            [["Bahrain", "28 Mar"], ["Imola", "18 Apr"]]⟩] else [])
        [2020, 2021]
      = ⟨["Grand Prix", "Date", "year"],
         [[.vStr "Bahrain", .vStr "28 Mar", .vInt 2021],
          [.vStr "Imola", .vStr "18 Apr", .vInt 2021]]⟩ :=
  claim_C4 ⟨["f1-table"], ["Grand Prix", "Date"],
      [["Bahrain", "28 Mar"], ["Imola", "18 Apr"]]⟩
    (by decide) (by decide) (by decide)

/-- C8: extraction preserves order — the circuits extractor returns the
qualifying data rows in source order, and a multi-period winners run
accumulates rows in period-iteration order with each period's rows in
source order. -/
theorem claim_C8 :
    (∀ rows : List (List String),
        parse_circuits_table rows
          = ((rows.drop 1).filter (fun r => 10 ≤ r.length)).map extractFields) ∧
    (∀ (site : Int → List HTMLTable) (years : List Int) (H : List String),
        (H ++ ["year"]).Nodup →
        (∀ y ∈ years, ∀ t, findF1Table (site y) = some t →
            t.headers = H ∧ ∀ r ∈ t.rows, r.length = H.length) →
        (scrape_all site years).rows
          = years.flatMap (fun y =>
              match findF1Table (site y) with
              | some t => t.rows.map (fun r => r.map Value.vStr ++ [.vInt y])
              | none => [])) := by
  constructor
  · intro rows
    unfold parse_circuits_table
    exact filterMap_extractRow _
  · intro site years H hnd hH
    have hyear : "year" ∉ H := by
      intro hm
      exact (List.nodup_append.mp hnd).2.2 hm (List.mem_singleton.mpr rfl)
    have hflat : ∀ ys : List Int, (∀ y ∈ ys, y ∈ years) →
        (ys.filterMap (scrape_year site)).flatMap (fun d => d.rows)
          = ys.flatMap (fun y =>
              match findF1Table (site y) with
              | some t => t.rows.map (fun r => r.map Value.vStr ++ [.vInt y])
              | none => []) := by
      intro ys
      induction ys with
      | nil => intro _; rfl
      | cons y ys ih =>
          intro hsub
          rw [List.filterMap_cons, List.flatMap_cons]
          cases hf : findF1Table (site y) with
          | none =>
              have hn : scrape_year site y = none := by
                unfold scrape_year
                rw [hf]
              rw [hn, ih (fun z hz => hsub z (List.mem_cons_of_mem _ hz))]
              rfl
          | some t =>
              have hTH := hH y (hsub y (List.mem_cons_self y ys)) t hf
              have hs := scrape_year_eq site y t hf (hTH.1 ▸ hyear)
              rw [hs, List.flatMap_cons,
                  ih (fun z hz => hsub z (List.mem_cons_of_mem _ hz))]
    by_cases hL0 : years.filterMap (scrape_year site) = []
    · simp only [scrape_all, hL0, List.isEmpty_nil, if_true, ite_true]
      have := hflat years (fun y hy => hy)
      rw [hL0] at this
      rw [← this]
      rfl
    · simp only [scrape_all]
      rw [if_neg (by simpa using hL0)]
      rw [concat_uniform _ (H ++ ["year"]) hnd ?hcols ?hrows hL0]
      · exact hflat years (fun y hy => hy)
      case hcols =>
        intro d hd
        obtain ⟨y, hy, hdy⟩ := List.mem_filterMap.mp hd
        rcases hfy : findF1Table (site y) with _ | t
        · rw [show scrape_year site y = none by unfold scrape_year; rw [hfy]] at hdy
          cases hdy
        · have hTH := hH y hy t hfy
          rw [scrape_year_eq site y t hfy (hTH.1 ▸ hyear)] at hdy
          cases hdy
          rw [hTH.1]
      case hrows =>
        intro d hd r hr
        obtain ⟨y, hy, hdy⟩ := List.mem_filterMap.mp hd
        rcases hfy : findF1Table (site y) with _ | t
        · rw [show scrape_year site y = none by unfold scrape_year; rw [hfy]] at hdy
          cases hdy
        · have hTH := hH y hy t hfy
          rw [scrape_year_eq site y t hfy (hTH.1 ▸ hyear)] at hdy
          cases hdy
          obtain ⟨r0, hr0, hre⟩ := List.mem_map.mp hr
          rw [← hre]
          simp [hTH.2 r0 hr0]

/-- C8 witness: the order statements at a concrete table and a concrete
two-period site. -/
theorem claim_C8_witness :
    parse_circuits_table [[], ["a", "b", "c", "d", "e", "f", "g", "h", "i", "j"], ["x"]]
        = (([[], ["a", "b", "c", "d", "e", "f", "g", "h", "i", "j"],
            ["x"]].drop 1).filter (fun r => 10 ≤ r.length)).map extractFields ∧
    (scrape_all
        (fun y => if y = 2021 then
          [⟨["f1-table"], ["Grand Prix", "Date"], [["Bahrain", "28 Mar"]]⟩] else [])
        [2020, 2021]).rows
      = ([2020, 2021] : List Int).flatMap (fun y =>
          match findF1Table ((fun y => if y = 2021 then
              [⟨["f1-table"], ["Grand Prix", "Date"], [["Bahrain", "28 Mar"]]⟩]
            else []) y) with
          | some t => t.rows.map (fun r => r.map Value.vStr ++ [.vInt y])
          | none => []) := by
  constructor
  · exact claim_C8.1 _
  · refine claim_C8.2 _ _ ["Grand Prix", "Date"] (by decide) ?_
    intro y hy t ht
    rcases List.mem_cons.mp hy with rfl | hy2
    · rw [show findF1Table ((fun y => if y = (2021 : Int) then
          [⟨["f1-table"], ["Grand Prix", "Date"], [["Bahrain", "28 Mar"]]⟩]
        else []) 2020) = none from rfl] at ht
      cases ht
    · rcases List.mem_cons.mp hy2 with rfl | h3
      · rw [show findF1Table ((fun y => if y = (2021 : Int) then
            [⟨["f1-table"], ["Grand Prix", "Date"], [["Bahrain", "28 Mar"]]⟩]
          else []) 2021)
            = some ⟨["f1-table"], ["Grand Prix", "Date"], [["Bahrain", "28 Mar"]]⟩
          from rfl] at ht
        cases ht
        exact ⟨rfl, by decide⟩
      · simp at h3

/-- C10: when every period yields no table, `scrape_all` returns the
empty frame (the empty accumulation list is guarded before `pd.concat`)
rather than raising, and `main` prints the no-data diagnostic and writes
no output file. -/
theorem claim_C10 (site : Int → List HTMLTable)
    (hno : ∀ y, findF1Table (site y) = none) :
    (∀ years : List Int, scrape_all site years = DF.empty) ∧
    mainEvents site = [OutEv.printedNoData] := by
  have hy : ∀ years : List Int, years.filterMap (scrape_year site) = [] := by
    intro years
    rw [List.filterMap_eq_nil_iff]
    intro y _
    unfold scrape_year
    rw [hno y]
  have hall : ∀ years : List Int, scrape_all site years = DF.empty := by
    intro years
    simp only [scrape_all, hy years, List.isEmpty_nil, if_true, ite_true]
  refine ⟨hall, ?_⟩
  unfold mainEvents
  rw [hall mainYears]
  rfl

/-- C10 witness: a site with no tables at all produces the empty frame
and the no-data diagnostic. -/
theorem claim_C10_witness :
    scrape_all (fun _ => []) [2020, 2021] = DF.empty ∧
    mainEvents (fun _ => []) = [OutEv.printedNoData] :=
  ⟨(claim_C10 (fun _ => []) (fun _ => rfl)).1 [2020, 2021],
   (claim_C10 (fun _ => []) (fun _ => rfl)).2⟩

/-- C7 counterexample: when a period's fetch raises, the browser
resource is never released (the source has no `try/finally` around the
loop), so the release count is 0, not 1. -/
theorem claim_C7_counterexample :
    ¬ ((scrape_allT (fun _ => Except.error ()) [2020]).1.count Ev.release = 1) := by
  decide

/-- C7 (amended): the browser resource is acquired exactly once before
the period loop; whenever no period's fetch raises, the trace is exactly
acquire-then-release (periods that merely find no table still end in the
release) — but a raised fetch error propagates and skips the release. -/
theorem claim_C7_amended (site : SiteE) (years : List Int) :
    ((scrape_allT site years).1.count Ev.acquire = 1) ∧
    ((∀ y ∈ years, ∃ p, site y = Except.ok p) →
      (scrape_allT site years).1 = [Ev.acquire, Ev.release]) := by
  constructor
  · unfold scrape_allT
    cases h : loopYears site years <;> rfl
  · intro hok
    obtain ⟨dfs, hdfs⟩ := loopYears_ok site years hok
    unfold scrape_allT
    rw [hdfs]

/-- C7 witness: a fully successful two-period run acquires once and
releases once, in that order. -/
theorem claim_C7_amended_witness :
    ((scrape_allT (fun _ => Except.ok []) [2020, 2021]).1.count Ev.acquire = 1) ∧
    (scrape_allT (fun _ => Except.ok []) [2020, 2021]).1 = [Ev.acquire, Ev.release] :=
  ⟨(claim_C7_amended (fun _ => Except.ok []) [2020, 2021]).1,
   (claim_C7_amended (fun _ => Except.ok []) [2020, 2021]).2 (fun _ _ => ⟨[], rfl⟩)⟩

end F1
